import Mathlib

/-!
Verification development for `ampligraph/discovery/discovery.py`.

Rows of the numpy triple arrays are modelled as `Triple = String × String × String`,
2-D arrays as lists of rows, machine integers as `Nat`/`Int`, and Python floats
as `ℚ` (exact arithmetic model of the float computations).  External
collaborators (the embedding model, `evaluate_performance`,
`filter_unseen_entities`, the networkx metrics, `np.random`) are parameters of
the embedded functions; the deterministic numpy RNG is modelled by an explicit
state-passing structure `NpRandom` whose interface records exactly the
guarantees of `np.random.choice(pool, size, replace=False)`.
-/

/-- Subject, predicate and object labels of one row of a `[n, 3]` array. -/
abbrev Triple := String × String × String

/-- Default row used for (always in-bounds) indexing. -/
def dfltTriple : Triple := ("", "", "")

/-- Field-wise row equality: mirrors `np.prod(swapaxes(A[:, :, None], 1, 2) == B, axis=2)`
in `_setdiff2d`, the product of the three field-wise comparisons of a row of A
against a row of B. -/
def rowEq (a b : Triple) : Bool :=
  (a.1 == b.1) && (a.2.1 == b.2.1) && (a.2.2 == b.2.2)

/-- Entry `(i, b)` of `np.cumsum(tmp, axis=0)` in `_setdiff2d`: how many rows among
`A[0..i]` (inclusive) are field-wise equal to `b`. -/
def cumMatch (A : List Triple) (i : Nat) (b : Triple) : Nat :=
  ((A.take (i + 1)).filter (fun a => rowEq a b)).length

/-- Row mask `np.sum(np.cumsum(tmp, axis=0) * tmp == 1, axis=1).astype(bool)` of
`_setdiff2d`: row `i` of A is marked iff it equals some row `b` of B and is the
first row of A equal to that `b`. -/
def removedMask (A B : List Triple) (i : Nat) : Bool :=
  B.any (fun b => rowEq (A.getD i dfltTriple) b && (cumMatch A i b == 1))

/-- Embedding of `_setdiff2d(A, B)` (discovery.py lines 366-387): keeps the rows of
A whose mask entry is false, in order. -/
def _setdiff2d (A B : List Triple) : List Triple :=
  ((List.range A.length).filter (fun i => ! removedMask A B i)).map
    (fun i => A.getD i dfltTriple)

/-- Embedding of the inner `_filter_candidates(X_candidates, X)` of
`generate_candidates` (discovery.py lines 277-284): drop candidate rows present in
X via `_setdiff2d`, then drop self-loops (`subject == object` rows). -/
def _filter_candidates (Xc X : List Triple) : List Triple :=
  (_setdiff2d Xc X).filter (fun t => t.1 != t.2.2)

/-- Rows of `np.array(np.meshgrid(heads, [rel], tails)).T.reshape(-1, 3)` as used by
every strategy of `generate_candidates`: the transpose puts the tail axis
outermost, so the rows enumerate tails in the outer loop and heads in the inner
loop. -/
def meshRows (heads : List String) (rel : String) (tails : List String) : List Triple :=
  tails.flatMap (fun t => heads.map (fun h => (h, rel, t)))

/-- Lexicographic comparison of character-code lists, the order numpy uses on
string arrays. -/
def charListLe : List Char → List Char → Bool
  | [], _ => true
  | _ :: _, [] => false
  | a :: as, b :: bs =>
    if a.toNat < b.toNat then true
    else if b.toNat < a.toNat then false
    else charListLe as bs

/-- Lexicographic string comparison over character codes. -/
def strLe (a b : String) : Bool := charListLe a.data b.data

/-- Model of `np.unique` on a 1-D string array: distinct values in sorted order
(stable structural insertion sort; the claims below depend only on
distinctness, not on the order). -/
def npUnique (l : List String) : List String :=
  List.insertionSort (fun a b => strLe a b = true) l.dedup

/-- Python value passed as `max_candidates`: an `int`, a `float` (modelled
exactly as a rational), or any non-numeric value (which fails the
`isinstance(max_candidates, (float, int))` check). -/
inductive PyNum where
  | int : Int → PyNum
  | float : Rat → PyNum
  | other : PyNum
deriving DecidableEq

/-- Message of the `isinstance` failure in `generate_candidates`. -/
def numericErrMsg : String := "Parameter max_candidates must be a float or int."

/-- Message of the positivity failure in `generate_candidates`. -/
def positiveErrMsg : String :=
  "Parameter max_candidates must be a positive integer or float in range (0,1]."

/-- Embedding of the `max_candidates` validation and conversion of
`generate_candidates` (discovery.py lines 252-262): non-numeric values and
values `<= 0` raise `ValueError`; a float is converted by
`int(max_candidates * len(X))`, i.e. the floor for positive values; an int is
used as-is. -/
def checkMaxCandidates (mc : PyNum) (lenX : Nat) : Except String Int :=
  match mc with
  | .other => .error numericErrMsg
  | .int z => if z ≤ 0 then .error positiveErrMsg else .ok z
  | .float q => if q ≤ 0 then .error positiveErrMsg else .ok (Int.floor (q * lenX))

/-- Message numpy raises from `np.random.choice(pool, size, replace=False)` when
`size` exceeds the population. -/
def insufficientPoolMsg : String :=
  "Cannot take a larger sample than population when 'replace=False'"

/-- Interface of the global numpy random generator as used by
`generate_candidates`: `seedFn` models `np.random.seed`, `choice` models
`np.random.choice(pool, size=s, replace=False)` threading the global state.
The propositional fields record exactly the documented guarantees of
without-replacement sampling: it fails iff the requested size exceeds the
population, and otherwise returns `s` elements of the pool, distinct whenever
the pool is duplicate-free. -/
structure NpRandom where
  State : Type
  seedFn : Nat → State
  choice : State → List String → Nat → Option (List String × State)
  choice_isSome : ∀ g pool s, (choice g pool s).isSome ↔ s ≤ pool.length
  choice_length : ∀ g pool s out, choice g pool s = some out → out.1.length = s
  choice_mem : ∀ g pool s out, choice g pool s = some out → ∀ x ∈ out.1, x ∈ pool
  choice_nodup : ∀ g pool s out, choice g pool s = some out → pool.Nodup → out.1.Nodup

/-- Floor integer square root, modelling `int(np.sqrt(max_candidates))`, defined
structurally so that it evaluates by kernel reduction: the largest `k <= n`
with `k * k <= n`. -/
def floorSqrt (n : Nat) : Nat :=
  (((List.range (n + 1)).filter (fun k => k * k ≤ n)).foldr max 0)

/-- Strategy names accepted by `generate_candidates` and `discover_facts`. -/
def validStrategies : List String :=
  ["random_uniform", "exhaustive", "entity_frequency", "graph_degree",
   "cluster_coefficient", "cluster_triangles", "cluster_squares"]

/-- Head entity pool of `generate_candidates`: `np.unique(X[:, 0])`, or the union
of subjects and objects when `consolidate_sides` is set. -/
def headPool (X : List Triple) (consolidateSides : Bool) : List String :=
  if consolidateSides then npUnique (X.map (·.1) ++ X.map (·.2.2))
  else npUnique (X.map (·.1))

/-- Tail entity pool of `generate_candidates`: `np.unique(X[:, 2])`, or the union
of subjects and objects when `consolidate_sides` is set. -/
def tailPool (X : List Triple) (consolidateSides : Bool) : List String :=
  if consolidateSides then npUnique (X.map (·.1) ++ X.map (·.2.2))
  else npUnique (X.map (·.2.2))

/-- Occurrence count of an entity across the subject and object columns of X,
as computed by `np.unique(X[:, [0, 2]], return_counts=True)`. -/
def entCount (X : List Triple) (e : String) : Nat :=
  ((X.map (·.1) ++ X.map (·.2.2)).filter (fun x => x == e)).length

/-- Sampling pool of the `entity_frequency` strategy
(`ent_counts[0:max_candidates, 0]`): distinct entities sorted ascending by
their stringified occurrence count (building `np.array` from mixed labels and
counts stringifies the counts, so `argsort` on that column compares the decimal
strings), truncated to the first `max_candidates` entries.  Ties keep the
`np.unique` order (modelling numpy argsort as stable; no claim depends on the
tie order). -/
def entityFrequencyPool (X : List Triple) (mc : Nat) : List String :=
  ((List.insertionSort (fun a b : String × String => strLe a.2 b.2 = true)
      ((npUnique (X.map (·.1) ++ X.map (·.2.2))).map
        (fun e => (e, Nat.repr (entCount X e))))).take mc).map (·.1)

/-- Sampling pool of the four graph-metric strategies: the networkx metric
dictionary (an external collaborator, passed here as the already stringified
key/value item list `C`) sorted ascending by the metric column and truncated to
the first `max_candidates` entries. -/
def metricPool (C : List (String × String)) (mc : Nat) : List String :=
  ((List.insertionSort (fun a b : String × String => strLe a.2 b.2 = true) C).take mc).map
    (·.1)

/-- Head and tail sampling pools of the non-exhaustive strategies of
`generate_candidates`: the deduplicated entity columns for `random_uniform`,
the low-frequency pool for `entity_frequency`, and the low-metric pool (from
the external networkx collaborator `metricFn`) for the four graph strategies;
both sides draw from the same pool in the latter two cases. -/
def samplingPools (X : List Triple) (strategy : String) (mcNat : Nat)
    (consolidate_sides : Bool) (metricFn : String → List Triple → List (String × String)) :
    List String × List String :=
  if strategy == "random_uniform" then
    (headPool X consolidate_sides, tailPool X consolidate_sides)
  else if strategy == "entity_frequency" then
    (entityFrequencyPool X mcNat, entityFrequencyPool X mcNat)
  else
    (metricPool (metricFn strategy X) mcNat, metricPool (metricFn strategy X) mcNat)

/-- Embedding of `generate_candidates` (discovery.py lines 182-363), with the
lazy generator made eager as the list of the batches it yields.  `g0` is the
global numpy RNG state at call time; the body never reads it because the code
begins with `np.random.seed(seed)`.  `metricFn` is the external
networkx-metric collaborator used by the four graph strategies (the target
relation warning of lines 247-250 is a log side effect and is not modelled). -/
def generate_candidates (rng : NpRandom) (g0 : rng.State) (X : List Triple)
    (strategy : String) (target_rel : String) (max_candidates : PyNum)
    (consolidate_sides : Bool) (metricFn : String → List Triple → List (String × String))
    (seed : Nat) : Except String (List (List Triple)) :=
  if strategy ∉ validStrategies then
    .error (strategy ++ " is not a valid candidate generation strategy.")
  else
    match checkMaxCandidates max_candidates X.length with
    | .error e => .error e
    | .ok mcv =>
      if strategy == "exhaustive" then
        .ok ((headPool X consolidate_sides).map
          (fun ent => _filter_candidates
            (meshRows [ent] target_rel (tailPool X consolidate_sides)) X))
      else
        match rng.choice (rng.seedFn seed)
            (samplingPools X strategy mcv.toNat consolidate_sides metricFn).1
            (floorSqrt mcv.toNat) with
        | none => .error insufficientPoolMsg
        | some (sample_e_s, g1) =>
          match rng.choice g1
              (samplingPools X strategy mcv.toNat consolidate_sides metricFn).2
              (floorSqrt mcv.toNat) with
          | none => .error insufficientPoolMsg
          | some (sample_e_o, _) =>
            .ok [_filter_candidates (meshRows sample_e_s target_rel sample_e_o) X]

/-- Deterministic instance of the `NpRandom` interface used to evaluate the
embedded functions on concrete inputs: sampling takes the first `s` pool
elements. -/
def takeFirstRng : NpRandom where
  State := Unit
  seedFn _ := ()
  choice g pool s := if s ≤ pool.length then some (pool.take s, g) else none
  choice_isSome := by
    intro g pool s
    by_cases h : s ≤ pool.length <;> simp [h]
  choice_length := by
    intro g pool s out h
    by_cases hs : s ≤ pool.length
    · simp only [if_pos hs] at h
      cases h
      simpa using hs
    · simp [if_neg hs] at h
  choice_mem := by
    intro g pool s out h x hx
    by_cases hs : s ≤ pool.length
    · simp only [if_pos hs] at h
      cases h
      exact (List.take_sublist s pool).mem hx
    · simp [if_neg hs] at h
  choice_nodup := by
    intro g pool s out h hn
    by_cases hs : s ≤ pool.length
    · simp only [if_pos hs] at h
      cases h
      exact hn.sublist (List.take_sublist s pool)
    · simp [if_neg hs] at h

/-- Interface of the external fitted embedding model as consumed by
`discover_facts` and `query_topn`: fitted flag, vocabularies
(`ent_to_idx` / `rel_to_idx` keys) and the scoring function `predict` (scores
modelled as exact integers; only their order matters to the claims). -/
structure KModel where
  isFitted : Bool
  entVocab : List String
  relVocab : List String
  predict : Triple → Int

/-- Model of `np.hstack` on a list of 2-D arrays (lists of rows): concatenation
along axis 1, requiring equal row counts; it raises on an empty list and on
mismatched row counts. -/
def np_hstack (arrs : List (List (List String))) :
    Except String (List (List String)) :=
  match arrs with
  | [] => .error "need at least one array to concatenate"
  | a :: rest =>
    if rest.all (fun b => b.length == a.length) then
      .ok ((List.range a.length).map
        (fun i => (arrs.map (fun arr => arr.getD i [])).flatten))
    else
      .error "all the input array dimensions except for the concatenation axis must match exactly"

/-- Row selection `candidates[np.mean(ranks, axis=1) <= top_n]` of
`discover_facts`: a candidate row is kept when the average of its
head-corruption and tail-corruption ranks is at most `top_n`; the float
comparison `(h + t) / 2 <= top_n` is expressed integrally as
`h + t <= 2 * top_n` (exact, since the mean of two naturals is a half-integer). -/
def retainTopN (ranker : Triple → Nat × Nat) (batch : List Triple) (top_n : Nat) :
    List Triple :=
  batch.filter (fun t => (ranker t).1 + (ranker t).2 ≤ 2 * top_n)

/-- Per-relation loop of `discover_facts` (discovery.py lines 152-179): pull all
candidate batches for each relation, keep the rows ranked within `top_n` by the
external ranker (`evaluate_performance`, passed per batch), accumulate the kept
arrays, and combine them with `np.hstack`. -/
def discover_loop (rng : NpRandom) (g0 : rng.State) (Xf : List Triple)
    (relList : List String) (ranker : List Triple → Triple → Nat × Nat)
    (metricFn : String → List Triple → List (String × String)) (top_n : Nat)
    (strategy : String) (max_candidates : PyNum) (seed : Nat) :
    Except String (List (List String)) :=
  match relList.mapM (fun relation =>
      generate_candidates rng g0 Xf strategy relation max_candidates false
        metricFn seed) with
  | .error e => .error e
  | .ok batchesPerRel =>
    np_hstack (batchesPerRel.flatten.map (fun batch =>
      (retainTopN (ranker batch) batch top_n).map (fun t => [t.1, t.2.1, t.2.2])))

/-- Embedding of `discover_facts` (discovery.py lines 14-179): validation, the
external unseen-entity filter, relation list selection, and the candidate
scoring loop.  `filterUnseen` and `ranker` are the external collaborators
`filter_unseen_entities` and `evaluate_performance`; the `is_fitted_on`
warning is a log side effect and is not modelled. -/
def discover_facts (rng : NpRandom) (g0 : rng.State) (X : List Triple)
    (model : KModel) (filterUnseen : List Triple → KModel → List Triple)
    (ranker : List Triple → Triple → Nat × Nat)
    (metricFn : String → List Triple → List (String × String)) (top_n : Nat)
    (strategy : String) (max_candidates : PyNum) (target_rel : Option String)
    (seed : Nat) : Except String (List (List String)) :=
  if model.isFitted = false then .error "Model is not fitted."
  else if strategy ∉ validStrategies then
    .error (strategy ++ " is not a valid strategy.")
  else
    match target_rel with
    | some r =>
      if r ∉ model.relVocab then .error "Target relation not found in model."
      else
        discover_loop rng g0 (filterUnseen X model) [r] ranker metricFn top_n
          strategy max_candidates seed
    | none =>
      discover_loop rng g0 (filterUnseen X model) model.relVocab ranker metricFn
        top_n strategy max_candidates seed

/-- Python truthiness of an optional string argument (`if head:`): present and
non-empty. -/
def pyTruthy (o : Option String) : Bool :=
  match o with
  | none => false
  | some s => !(s == "")

/-- Python `xs or ys` for an optional candidate list (line 915/918 of
discovery.py): an absent or empty list falls back to the default vocabulary. -/
def pyOr (o : Option (List String)) (dflt : List String) : List String :=
  match o with
  | none => dflt
  | some l => if l.isEmpty then dflt else l

/-- Warning logged when `ents_to_consider` has fewer than `top_n` entries. -/
def truncEntsMsg : String :=
  "`ents_to_consider` contains less than top_n values, return set will be truncated."

/-- Warning logged when `rels_to_consider` has fewer than `top_n` entries. -/
def truncRelsMsg : String :=
  "`rels_to_consider` contains less than top_n values, return set will be truncated."

/-- Ascending comparison on candidate indices used by the concrete
`stableArgsort` instance below: order by score, ties by original index. -/
def argsortRel (scores : List Int) (i j : Nat) : Prop :=
  scores.getD i 0 < scores.getD j 0
    ∨ (scores.getD i 0 = scores.getD j 0 ∧ i ≤ j)

instance (scores : List Int) : DecidableRel (argsortRel scores) := fun i j => by
  unfold argsortRel
  infer_instance

instance (scores : List Int) : IsTotal Nat (argsortRel scores) := ⟨by
  intro a b
  unfold argsortRel
  rcases lt_trichotomy (scores.getD a 0) (scores.getD b 0) with h | h | h
  · exact Or.inl (Or.inl h)
  · rcases le_total a b with hab | hab
    · exact Or.inl (Or.inr ⟨h, hab⟩)
    · exact Or.inr (Or.inr ⟨h.symm, hab⟩)
  · exact Or.inr (Or.inl h)⟩

instance (scores : List Int) : IsTrans Nat (argsortRel scores) := ⟨by
  intro a b c hab hbc
  unfold argsortRel at hab hbc ⊢
  rcases hab with h1 | ⟨h1, h1i⟩ <;> rcases hbc with h2 | ⟨h2, h2i⟩
  · exact Or.inl (h1.trans h2)
  · exact Or.inl (h2 ▸ h1)
  · exact Or.inl (h1 ▸ h2)
  · exact Or.inr ⟨h1.trans h2, le_trans h1i h2i⟩⟩

/-- Interface of `np.argsort(scores, axis=0)` as used by `query_topn`: numpy
documents the result as a permutation of the candidate indices that sorts the
scores ascending, and nothing more — the default quicksort (introsort) is not
stable, so the relative order of tied indices is unspecified and this
interface fixes nothing about it. -/
structure NpArgsort where
  argsort : List Int → List Nat
  argsort_perm : ∀ scores, (argsort scores).Perm (List.range scores.length)
  argsort_sorted : ∀ scores,
    (argsort scores).Pairwise (fun i j => scores.getD i 0 ≤ scores.getD j 0)

/-- Concrete `NpArgsort` instance used to evaluate the embedding on concrete
inputs: stable ascending insertion sort with ties by original index.  Numpy's
default sort runs insertion sort below its 16-element partition threshold, so
this instance coincides with `np.argsort` on the small arrays evaluated
below; the general theorems quantify over every conforming argsort instead. -/
def stableArgsort : NpArgsort where
  argsort scores :=
    List.insertionSort (argsortRel scores) (List.range scores.length)
  argsort_perm scores := List.perm_insertionSort _ _
  argsort_sorted scores := by
    apply List.Pairwise.imp ?_
      (List.sorted_insertionSort (argsortRel scores) (List.range scores.length))
    intro a b hab
    rcases hab with hlt | ⟨heq, _⟩
    · exact le_of_lt hlt
    · exact le_of_eq heq

/-- Embedding of `np.squeeze(np.argsort(scores, axis=0)[::-1][:top_n])`
(discovery.py line 928): the index sequence produced by the argsort, reversed,
truncated to the first `top_n` entries (`np.squeeze` only adjusts the array
shape, not the index sequence). -/
def topnIdx (asort : NpArgsort) (scores : List Int) (top_n : Nat) : List Nat :=
  ((asort.argsort scores).reverse).take top_n

/-- Embedding of `query_topn` (discovery.py lines 775-932), returning the
logged warnings together with the top-n completion triples and their scores.
The `isinstance(..., (list, np.ndarray))` checks always pass here because
candidate lists are typed; formatted label interpolations are dropped from the
error messages; everything else follows the source order of checks. -/
def query_topn (asort : NpArgsort) (model : KModel) (top_n : Nat)
    (head relation tail : Option String)
    (ents_to_consider rels_to_consider : Option (List String)) :
    Except String (List String × List Triple × List Int) :=
  if model.isFitted = false then .error "Model is not fitted."
  else if ((if head = none then 1 else 0) + (if relation = none then 1 else 0)
      + (if tail = none then 1 else 0) : Nat) ≠ 1 then
    .error "Exactly one of `head`, `relation` or `tail` arguments must be None."
  else if pyTruthy head ∧ head.getD "" ∉ model.entVocab then
    .error "Head entity not seen by model"
  else if pyTruthy relation ∧ relation.getD "" ∉ model.relVocab then
    .error "Relation not seen by model"
  else if pyTruthy tail ∧ tail.getD "" ∉ model.entVocab then
    .error "Tail entity not seen by model"
  else if ents_to_consider.isSome ∧ (pyTruthy head ∧ pyTruthy tail) then
    .error "Cannot specify `ents_to_consider` and both `subject` and `object` arguments."
  else if ents_to_consider.isSome
      ∧ ¬ (∀ x ∈ ents_to_consider.getD [], x ∈ model.entVocab) then
    .error "Entities in `ents_to_consider` have not been seen by the model."
  else if rels_to_consider.isSome ∧ pyTruthy relation then
    .error "Cannot specify both `rels_to_consider` and `relation` arguments."
  else if rels_to_consider.isSome
      ∧ ¬ (∀ x ∈ rels_to_consider.getD [], x ∈ model.relVocab) then
    .error "Relations in `rels_to_consider` have not been seen by the model."
  else
    let warns :=
      (match ents_to_consider with
        | none => []
        | some l => if l.length < top_n then [truncEntsMsg] else [])
      ++ (match rels_to_consider with
        | none => []
        | some l => if l.length < top_n then [truncRelsMsg] else [])
    let triples :=
      match relation with
      | none =>
        (pyOr rels_to_consider model.relVocab).map
          (fun x => (head.getD "", x, tail.getD ""))
      | some r =>
        if pyTruthy head then
          (pyOr ents_to_consider model.entVocab).map (fun x => (head.getD "", r, x))
        else
          (pyOr ents_to_consider model.entVocab).map (fun x => (x, r, tail.getD ""))
    let scores := triples.map model.predict
    let idxs := topnIdx asort scores top_n
    .ok (warns, idxs.map (fun i => triples.getD i dfltTriple),
      idxs.map (fun i => scores.getD i 0))

/-- Neighborhood row i of `NearestNeighbors(metric, radius=tol).radius_neighbors(emb)`
in `get_dups`: the indices whose embedding lies within distance `tol` of
embedding i (inclusive radius, so the point itself appears whenever
`d x x = 0 <= tol`). -/
def radiusNeighbors {P : Type} [Inhabited P] (d : P → P → Rat) (emb : List P)
    (tol : Rat) (i : Nat) : List Nat :=
  (List.range emb.length).filter
    (fun j => d (emb.getD i default) (emb.getD j default) ≤ tol)

/-- Embedding of the inner `get_dups(tol)` of `find_duplicates` (discovery.py
lines 727-752): for every item whose radius neighborhood holds more than one
index, emit the set of labels of that neighborhood; the Python
set-of-frozensets construction is modelled as the deduplicated list of label
Finsets. -/
def get_dups {P : Type} [Inhabited P] (labels : List String) (emb : List P)
    (d : P → P → Rat) (tol : Rat) : List (Finset String) :=
  (((List.range emb.length).filter
      (fun i => 1 < (radiusNeighbors d emb tol i).length)).map
    (fun i => ((radiusNeighbors d emb tol i).map
      (fun j => labels.getD j "")).toFinset)).dedup

/-- Union of all duplicate groups, `set().union(*duplicates)`. -/
def dupUnion (groups : List (Finset String)) : Finset String :=
  groups.foldr (· ∪ ·) ∅

/-- Embedding of the inner `opt(tol)` of `find_duplicates` (lines 754-766):
the fraction of items belonging to at least one duplicate group at tolerance
`tol`, minus the expected fraction (the `info` argument only counts verbose
log evaluations). -/
def optFun {P : Type} [Inhabited P] (labels : List String) (emb : List P)
    (d : P → P → Rat) (expected : Rat) (tol : Rat) : Rat :=
  ((dupUnion (get_dups labels emb d tol)).card : Rat) / (emb.length : Rat)
    - expected

/-- Largest entry of `spatial.distance_matrix(emb, emb)`.  The fold with
neutral element 0 equals the numpy maximum because the matrix always contains
its diagonal, which is zero for every actual metric. -/
def maxPairwiseDistance {P : Type} [Inhabited P] (d : P → P → Rat)
    (emb : List P) : Rat :=
  ((emb.map (fun x => emb.map (fun y => d x y))).flatten).foldr max 0

/-- Message of scipy's sign check in `bisect`. -/
def signErrMsg : String := "f(a) and f(b) must have different signs"

/-- Message of scipy's non-convergence error after `maxiter` iterations. -/
def convErrMsg : String := "Failed to converge after 50 iterations."

/-- Iteration of the C bisection routine behind `scipy.optimize.bisect`: halve
the step, probe the midpoint, move the left end when the midpoint has the sign
of `fa` (which scipy never updates), and return the midpoint once it is a root
or the step is below `xtol + rtol * |xm|`; exhausting the iteration budget
raises the non-convergence RuntimeError. -/
def bisectLoop (f : Rat → Rat) (xtol rtol : Rat) (fa : Rat) :
    Nat → Rat → Rat → Except String Rat
  | 0, _, _ => .error convErrMsg
  | fuel + 1, xa, dm =>
    if f (xa + dm / 2) = 0 ∨ |dm / 2| < xtol + rtol * |xa + dm / 2| then
      .ok (xa + dm / 2)
    else
      bisectLoop f xtol rtol fa fuel
        (if f (xa + dm / 2) * fa ≥ 0 then xa + dm / 2 else xa) (dm / 2)

/-- Embedding of `scipy.optimize.bisect(f, xa, xb, xtol, rtol, maxiter)`: a
bracket whose endpoint values have the same strict sign raises ValueError
before any iteration; a zero endpoint returns immediately; otherwise the
halving loop runs. -/
def bisect (f : Rat → Rat) (xa xb xtol rtol : Rat) (maxiter : Nat) :
    Except String Rat :=
  if f xa * f xb > 0 then .error signErrMsg
  else if f xa = 0 then .ok xa
  else if f xb = 0 then .ok xb
  else bisectLoop f xtol rtol (f xa) maxiter xa (xb - xa)

/-- Embedding of the `tolerance == 'auto'` path of `find_duplicates`
(discovery.py lines 768-772): compute the largest pairwise distance, run
scipy's bisection on `opt` over [0, maxDistance] with the call's xtol = 1e-3,
the default rtol = 4 * eps = 2^-50 and maxiter = 50, and return the duplicate
groups at the resolved tolerance together with that tolerance. -/
def find_duplicates_auto {P : Type} [Inhabited P] (labels : List String)
    (emb : List P) (d : P → P → Rat) (expected : Rat) :
    Except String (List (Finset String) × Rat) :=
  match bisect (optFun labels emb d expected) 0 (maxPairwiseDistance d emb)
      (1 / 1000) (1 / 2 ^ 50) 50 with
  | .error e => .error e
  | .ok tol => .ok (get_dups labels emb d tol, tol)

/-- Absolute-difference metric on 1-dimensional rational embeddings, used to
instantiate the duplicate finder on concrete inputs. -/
def qdist (x y : Rat) : Rat := |x - y|

/-- C1: `_setdiff2d` on the claim's example removes the one matching row and
preserves order, but on an input where a row of B occurs twice in A it removes
only the first occurrence and returns the second, contradicting the claim (and
the function's own docstring, "Rows of A that are not in B", which requires the
empty result). -/
theorem setdiff2d_repeat_eval :
    _setdiff2d [("a", "y", "b"), ("b", "y", "a"), ("a", "y", "c")] [("b", "y", "a")]
      = [("a", "y", "b"), ("a", "y", "c")]
    ∧ _setdiff2d [("b", "y", "a"), ("b", "y", "a")] [("b", "y", "a")]
      = [("b", "y", "a")] := by
  constructor <;> rfl

/-- Every member of a list is bounded by its max fold. -/
theorem le_foldr_max {a : Nat} {l : List Nat} (h : a ∈ l) : a ≤ l.foldr max 0 := by
  induction l with
  | nil => cases h
  | cons x xs ih =>
    rcases List.mem_cons.mp h with rfl | h
    · exact le_max_left _ _
    · exact le_trans (ih h) (le_max_right _ _)

/-- Upper bound on the max fold of a list of naturals. -/
theorem foldr_max_le {b : Nat} {l : List Nat} (h : ∀ x ∈ l, x ≤ b) :
    l.foldr max 0 ≤ b := by
  induction l with
  | nil => exact Nat.zero_le b
  | cons x xs ih =>
    exact max_le (h x (List.mem_cons_self x xs)) (ih fun y hy => h y (List.mem_cons_of_mem x hy))

/-- The structural floor square root agrees with `Nat.sqrt`. -/
theorem floorSqrt_eq_sqrt (n : Nat) : floorSqrt n = Nat.sqrt n := by
  apply le_antisymm
  · apply foldr_max_le
    intro x hx
    have := List.of_mem_filter hx
    exact Nat.le_sqrt.mpr (by simpa using this)
  · apply le_foldr_max
    apply List.mem_filter.mpr
    refine ⟨List.mem_range.mpr (Nat.lt_succ_of_le (Nat.sqrt_le_self n)), ?_⟩
    simpa [pow_two] using Nat.sqrt_le' n

/-- C6: two calls to `generate_candidates` with identical arguments (including
the same seed) yield identical batch sequences, whatever the incoming global
RNG states, because the function begins with `np.random.seed(seed)` and every
sampling call uses the reseeded state. -/
theorem generate_candidates_deterministic (rng : NpRandom) (g1 g2 : rng.State)
    (X : List Triple) (strategy target_rel : String) (max_candidates : PyNum)
    (consolidate_sides : Bool)
    (metricFn : String → List Triple → List (String × String)) (seed : Nat) :
    generate_candidates rng g1 X strategy target_rel max_candidates
        consolidate_sides metricFn seed
      = generate_candidates rng g2 X strategy target_rel max_candidates
        consolidate_sides metricFn seed := rfl

/-- C7: for any call to `generate_candidates` with a valid strategy, a
`max_candidates` failing validation makes the call fail with that validation
error; the validation rejects exactly the non-numeric and non-positive values,
converts a positive fractional value to `floor(fraction * len(X))`, and keeps a
positive integer as-is. -/
theorem max_candidates_spec (rng : NpRandom) (g0 : rng.State) (X : List Triple)
    (strategy target_rel : String) (consolidate_sides : Bool)
    (metricFn : String → List Triple → List (String × String)) (seed : Nat)
    (mc : PyNum) (e : String) (hs : strategy ∈ validStrategies) :
    (checkMaxCandidates mc X.length = .error e →
      generate_candidates rng g0 X strategy target_rel mc consolidate_sides
        metricFn seed = .error e)
    ∧ (mc = .other → checkMaxCandidates mc X.length = .error numericErrMsg)
    ∧ (∀ z : Int, mc = .int z → z ≤ 0 →
        checkMaxCandidates mc X.length = .error positiveErrMsg)
    ∧ (∀ q : Rat, mc = .float q → q ≤ 0 →
        checkMaxCandidates mc X.length = .error positiveErrMsg)
    ∧ (∀ q : Rat, mc = .float q → 0 < q → q ≤ 1 →
        checkMaxCandidates mc X.length = .ok (Int.floor (q * X.length)))
    ∧ (∀ z : Int, mc = .int z → 0 < z → checkMaxCandidates mc X.length = .ok z) := by
  refine ⟨?_, ?_, ?_, ?_, ?_, ?_⟩
  · intro h
    unfold generate_candidates
    rw [if_neg (not_not_intro hs), h]
  · rintro rfl
    rfl
  · rintro z rfl hz
    simp [checkMaxCandidates, hz]
  · rintro q rfl hq
    simp [checkMaxCandidates, hq]
  · rintro q rfl hq hq1
    simp [checkMaxCandidates, not_le.mpr hq]
  · rintro z rfl hz
    simp [checkMaxCandidates, not_le.mpr hz]

/-- Witness for C7: a fractional `max_candidates` of 3/10 over a 10-row graph is
converted to the absolute count 3. -/
theorem max_candidates_spec_witness :
    checkMaxCandidates (.float (3 / 10)) 10 = .ok 3 := by
  have h := (max_candidates_spec takeFirstRng () (List.replicate 10 dfltTriple)
      "random_uniform" "y" false (fun _ _ => []) 0 (.float (3 / 10)) ""
      (by decide)).2.2.2.2.1 (3 / 10) rfl (by norm_num) (by norm_num)
  simp only [List.length_replicate] at h
  rw [h]
  norm_num

/-- Length of the meshgrid cross product: one row per head/tail pair. -/
theorem meshRows_length (heads : List String) (rel : String) (tails : List String) :
    (meshRows heads rel tails).length = tails.length * heads.length := by
  unfold meshRows
  induction tails with
  | nil => simp
  | cons t ts ih =>
    simp only [List.flatMap_cons, List.length_append, List.length_map,
      List.length_cons, ih]
    ring

/-- Reduction of `generate_candidates` at the literal `random_uniform` strategy
to its validation, sampling and filtering steps. -/
theorem generate_random_uniform_eq (rng : NpRandom) (g0 : rng.State)
    (X : List Triple) (target_rel : String) (mc : PyNum) (cs : Bool)
    (mF : String → List Triple → List (String × String)) (seed : Nat) :
    generate_candidates rng g0 X "random_uniform" target_rel mc cs mF seed
      = match checkMaxCandidates mc X.length with
        | .error e => .error e
        | .ok mcv =>
          match rng.choice (rng.seedFn seed) (headPool X cs) (floorSqrt mcv.toNat) with
          | none => .error insufficientPoolMsg
          | some (sS, g1) =>
            match rng.choice g1 (tailPool X cs) (floorSqrt mcv.toNat) with
            | none => .error insufficientPoolMsg
            | some (sO, _) =>
              .ok [_filter_candidates (meshRows sS target_rel sO) X] := rfl

/-- C8: with a validated `max_candidates` whose value is `mcv`, the
`random_uniform` strategy fails with numpy's insufficient-population error
exactly when `s = floor(sqrt(mcv))` exceeds the head pool or the tail pool, and
otherwise yields exactly one batch obtained by filtering the `s * s` cross
product of the `s` sampled head entities and `s` sampled tail entities with the
target relation. -/
theorem random_uniform_spec (rng : NpRandom) (g0 : rng.State) (X : List Triple)
    (target_rel : String) (mc : PyNum) (cs : Bool)
    (mF : String → List Triple → List (String × String)) (seed : Nat)
    (mcv : Int) (hmc : checkMaxCandidates mc X.length = .ok mcv) :
    (generate_candidates rng g0 X "random_uniform" target_rel mc cs mF seed
        = .error insufficientPoolMsg
      ↔ (headPool X cs).length < floorSqrt mcv.toNat
        ∨ (tailPool X cs).length < floorSqrt mcv.toNat)
    ∧ (∀ sS g1, rng.choice (rng.seedFn seed) (headPool X cs) (floorSqrt mcv.toNat)
          = some (sS, g1) →
        ∀ sO g2, rng.choice g1 (tailPool X cs) (floorSqrt mcv.toNat) = some (sO, g2) →
          generate_candidates rng g0 X "random_uniform" target_rel mc cs mF seed
              = .ok [_filter_candidates (meshRows sS target_rel sO) X]
            ∧ sS.length = floorSqrt mcv.toNat ∧ sO.length = floorSqrt mcv.toNat
            ∧ (meshRows sS target_rel sO).length
                = floorSqrt mcv.toNat * floorSqrt mcv.toNat) := by
  have hred : generate_candidates rng g0 X "random_uniform" target_rel mc cs mF seed
      = match rng.choice (rng.seedFn seed) (headPool X cs) (floorSqrt mcv.toNat) with
        | none => .error insufficientPoolMsg
        | some (sS, g1) =>
          match rng.choice g1 (tailPool X cs) (floorSqrt mcv.toNat) with
          | none => .error insufficientPoolMsg
          | some (sO, _) =>
            .ok [_filter_candidates (meshRows sS target_rel sO) X] := by
    rw [generate_random_uniform_eq, hmc]
  constructor
  · cases h1 : rng.choice (rng.seedFn seed) (headPool X cs) (floorSqrt mcv.toNat) with
    | none =>
      rw [h1] at hred
      simp only [] at hred
      have hlt : (headPool X cs).length < floorSqrt mcv.toNat := by
        by_contra hle
        have hsome := (rng.choice_isSome (rng.seedFn seed) (headPool X cs)
          (floorSqrt mcv.toNat)).mpr (Nat.le_of_not_lt hle)
        rw [h1] at hsome
        simp at hsome
      exact ⟨fun _ => Or.inl hlt, fun _ => hred⟩
    | some out =>
      obtain ⟨sS, g1⟩ := out
      have hleS : floorSqrt mcv.toNat ≤ (headPool X cs).length :=
        (rng.choice_isSome (rng.seedFn seed) (headPool X cs)
          (floorSqrt mcv.toNat)).mp (by rw [h1]; rfl)
      rw [h1] at hred
      simp only [] at hred
      cases h2 : rng.choice g1 (tailPool X cs) (floorSqrt mcv.toNat) with
      | none =>
        rw [h2] at hred
        simp only [] at hred
        have hlt : (tailPool X cs).length < floorSqrt mcv.toNat := by
          by_contra hle
          have hsome := (rng.choice_isSome g1 (tailPool X cs)
            (floorSqrt mcv.toNat)).mpr (Nat.le_of_not_lt hle)
          rw [h2] at hsome
          simp at hsome
        exact ⟨fun _ => Or.inr hlt, fun _ => hred⟩
      | some out2 =>
        obtain ⟨sO, g2⟩ := out2
        rw [h2] at hred
        simp only [] at hred
        have hleO : floorSqrt mcv.toNat ≤ (tailPool X cs).length :=
          (rng.choice_isSome g1 (tailPool X cs) (floorSqrt mcv.toNat)).mp
            (by rw [h2]; rfl)
        constructor
        · intro h
          rw [hred] at h
          simp at h
        · intro h
          rcases h with h | h
          · exact absurd hleS (Nat.not_le_of_lt h)
          · exact absurd hleO (Nat.not_le_of_lt h)
  · intro sS g1 h1 sO g2 h2
    rw [h1] at hred
    simp only [] at hred
    rw [h2] at hred
    simp only [] at hred
    refine ⟨hred, rng.choice_length _ _ _ _ h1, rng.choice_length _ _ _ _ h2, ?_⟩
    rw [meshRows_length, rng.choice_length _ _ _ _ h1, rng.choice_length _ _ _ _ h2]

/-- Witness for C8: a one-triple graph has head pool of size 1, so requesting
`max_candidates = 9` (sample size 3) fails with the insufficient-population
error. -/
theorem random_uniform_spec_witness :
    generate_candidates takeFirstRng () [("a", "y", "b")] "random_uniform" "y"
      (.int 9) false (fun _ _ => []) 0 = .error insufficientPoolMsg := by
  exact (random_uniform_spec takeFirstRng () [("a", "y", "b")] "y" (.int 9)
    false (fun _ _ => []) 0 9 (by rfl)).1.mpr (Or.inl (by decide))

/-- Field-wise row equality agrees with equality of triples. -/
theorem rowEq_iff {a b : Triple} : rowEq a b = true ↔ a = b := by
  obtain ⟨a1, a2, a3⟩ := a
  obtain ⟨b1, b2, b3⟩ := b
  simp [rowEq, Prod.ext_iff, and_assoc]

/-- In a duplicate-free row list containing t, exactly one row is field-wise
equal to t. -/
theorem filter_rowEq_length {l : List Triple} {t : Triple} (h : l.Nodup)
    (ht : t ∈ l) : (l.filter (fun a => rowEq a t)).length = 1 := by
  induction l with
  | nil => cases ht
  | cons a as ih =>
    rw [List.nodup_cons] at h
    rcases List.mem_cons.mp ht with rfl | hmem
    · rw [show List.filter (fun a => rowEq a t) (t :: as)
            = t :: List.filter (fun a => rowEq a t) as from
          List.filter_cons_of_pos (rowEq_iff.mpr rfl)]
      have hnone : as.filter (fun x => rowEq x t) = [] := by
        apply List.filter_eq_nil_iff.mpr
        intro x hx hcontra
        exact h.1 (rowEq_iff.mp hcontra ▸ hx)
      rw [hnone]
      rfl
    · have hne : ¬ rowEq a t = true := by
        intro hcontra
        apply h.1
        rw [rowEq_iff.mp hcontra]
        exact hmem
      rw [show List.filter (fun a => rowEq a t) (a :: as)
            = List.filter (fun a => rowEq a t) as from
          List.filter_cons_of_neg hne]
      exact ih h.2 hmem

/-- Rows returned by `_setdiff2d` are rows of A. -/
theorem mem_of_mem_setdiff2d {A B : List Triple} {t : Triple}
    (ht : t ∈ _setdiff2d A B) : t ∈ A := by
  unfold _setdiff2d at ht
  obtain ⟨i, hi, rfl⟩ := List.mem_map.mp ht
  have hir := List.mem_range.mp (List.mem_filter.mp hi).1
  rw [List.getD_eq_getElem A dfltTriple hir]
  exact List.getElem_mem hir

/-- On a duplicate-free candidate list, `_setdiff2d` removes every row of B: a
row of A equal to a row of B is then its own first occurrence, so the
first-occurrence mask marks it for removal. -/
theorem not_mem_of_mem_setdiff2d {A B : List Triple} {t : Triple} (hA : A.Nodup)
    (ht : t ∈ _setdiff2d A B) : t ∉ B := by
  unfold _setdiff2d at ht
  obtain ⟨i, hi, rfl⟩ := List.mem_map.mp ht
  obtain ⟨hmem, hmask⟩ := List.mem_filter.mp hi
  have hir := List.mem_range.mp hmem
  intro htB
  have hrm : removedMask A B i = true := by
    unfold removedMask
    apply List.any_eq_true.mpr
    refine ⟨A.getD i dfltTriple, htB, ?_⟩
    rw [Bool.and_eq_true]
    refine ⟨rowEq_iff.mpr rfl, ?_⟩
    have hcount : cumMatch A i (A.getD i dfltTriple) = 1 := by
      unfold cumMatch
      apply filter_rowEq_length (hA.sublist (List.take_sublist _ _))
      have hlt : i < (A.take (i + 1)).length := by
        rw [List.length_take]
        exact lt_min (Nat.lt_succ_self i) hir
      have hgt : (A.take (i + 1))[i] = A.getD i dfltTriple := by
        rw [List.getElem_take, List.getD_eq_getElem A dfltTriple hir]
      rw [← hgt]
      exact List.getElem_mem hlt
    rw [hcount]
    rfl
  rw [hrm] at hmask
  simp at hmask

/-- Core guarantee of `_filter_candidates` on a duplicate-free candidate list:
every surviving row is absent from X and is not a self-loop. -/
theorem filter_candidates_spec {Xc X : List Triple} {t : Triple} (hN : Xc.Nodup)
    (ht : t ∈ _filter_candidates Xc X) : t ∉ X ∧ t.1 ≠ t.2.2 := by
  unfold _filter_candidates at ht
  obtain ⟨hsd, hne⟩ := List.mem_filter.mp ht
  refine ⟨not_mem_of_mem_setdiff2d hN hsd, ?_⟩
  simpa using hne

/-- Cross-product rows of duplicate-free head and tail samples are
duplicate-free. -/
theorem meshRows_nodup {heads tails : List String} (rel : String)
    (hh : heads.Nodup) (ht : tails.Nodup) : (meshRows heads rel tails).Nodup := by
  unfold meshRows
  apply List.nodup_flatMap.mpr
  constructor
  · intro t _
    exact hh.map (fun h1 h2 he => by
      simpa using congrArg (fun p : Triple => p.1) he)
  · apply ht.imp
    intro a b hab x hx1 hx2
    obtain ⟨h1, _, he1⟩ := List.mem_map.mp hx1
    obtain ⟨h2, _, he2⟩ := List.mem_map.mp hx2
    apply hab
    have heq : ((h1, rel, a) : Triple) = (h2, rel, b) := he1.trans he2.symm
    simpa using congrArg (fun p : Triple => p.2.2) heq

/-- Values of `np.unique` are distinct. -/
theorem npUnique_nodup (l : List String) : (npUnique l).Nodup :=
  ((List.perm_insertionSort _ _).nodup_iff).mpr (List.nodup_dedup l)

/-- The head pool of `generate_candidates` is duplicate-free. -/
theorem headPool_nodup (X : List Triple) (cs : Bool) : (headPool X cs).Nodup := by
  unfold headPool
  split <;> exact npUnique_nodup _

/-- The tail pool of `generate_candidates` is duplicate-free. -/
theorem tailPool_nodup (X : List Triple) (cs : Bool) : (tailPool X cs).Nodup := by
  unfold tailPool
  split <;> exact npUnique_nodup _

/-- Entity labels of the `entity_frequency` sampling pool are distinct. -/
theorem entityFrequencyPool_nodup (X : List Triple) (mc : Nat) :
    (entityFrequencyPool X mc).Nodup := by
  unfold entityFrequencyPool
  rw [List.map_take]
  apply List.Nodup.sublist (List.take_sublist _ _)
  have hperm := (List.perm_insertionSort
    (fun a b : String × String => strLe a.2 b.2 = true)
    ((npUnique (X.map (·.1) ++ X.map (·.2.2))).map
      (fun e => (e, Nat.repr (entCount X e))))).map (·.1)
  apply hperm.nodup_iff.mpr
  rw [List.map_map]
  have hid : (Prod.fst ∘ fun e : String => (e, Nat.repr (entCount X e)))
      = fun e => e := rfl
  rw [hid, List.map_id']
  exact npUnique_nodup (X.map (·.1) ++ X.map (·.2.2))

/-- Entity labels of a graph-metric sampling pool are distinct whenever the
metric dictionary has distinct keys. -/
theorem metricPool_nodup (C : List (String × String)) (mc : Nat)
    (hC : (C.map Prod.fst).Nodup) : (metricPool C mc).Nodup := by
  unfold metricPool
  rw [List.map_take]
  apply List.Nodup.sublist (List.take_sublist _ _)
  have hperm := (List.perm_insertionSort
    (fun a b : String × String => strLe a.2 b.2 = true) C).map Prod.fst
  exact hperm.nodup_iff.mpr hC

/-- Both sampling pools of every non-exhaustive strategy are duplicate-free
(given distinct keys in the external metric dictionaries). -/
theorem samplingPools_nodup (X : List Triple) (strategy : String) (mcNat : Nat)
    (cs : Bool) (mF : String → List Triple → List (String × String))
    (hmF : ∀ s Y, ((mF s Y).map Prod.fst).Nodup) :
    (samplingPools X strategy mcNat cs mF).1.Nodup
      ∧ (samplingPools X strategy mcNat cs mF).2.Nodup := by
  unfold samplingPools
  split
  · exact ⟨headPool_nodup X cs, tailPool_nodup X cs⟩
  · split
    · exact ⟨entityFrequencyPool_nodup X mcNat, entityFrequencyPool_nodup X mcNat⟩
    · exact ⟨metricPool_nodup _ mcNat (hmF strategy X),
        metricPool_nodup _ mcNat (hmF strategy X)⟩

/-- C3: every triple of every batch yielded by `generate_candidates` (any
strategy, any arguments, any RNG obeying the without-replacement interface,
any metric collaborator with distinct keys) is absent field-wise from the
source collection X and has subject distinct from object. -/
theorem generate_candidates_batch_invariant (rng : NpRandom) (g0 : rng.State)
    (X : List Triple) (strategy target_rel : String) (mc : PyNum) (cs : Bool)
    (mF : String → List Triple → List (String × String)) (seed : Nat)
    (hmF : ∀ s Y, ((mF s Y).map Prod.fst).Nodup)
    (batches : List (List Triple))
    (hgen : generate_candidates rng g0 X strategy target_rel mc cs mF seed
      = .ok batches)
    (b : List Triple) (hb : b ∈ batches) (t : Triple) (ht : t ∈ b) :
    t ∉ X ∧ t.1 ≠ t.2.2 := by
  unfold generate_candidates at hgen
  by_cases hvs : strategy ∉ validStrategies
  · rw [if_pos hvs] at hgen
    simp at hgen
  · rw [if_neg hvs] at hgen
    cases hck : checkMaxCandidates mc X.length with
    | error e =>
      rw [hck] at hgen
      simp at hgen
    | ok mcv =>
      rw [hck] at hgen
      simp only [] at hgen
      by_cases hex : strategy == "exhaustive"
      · rw [if_pos hex] at hgen
        have hbe := (Except.ok.injEq _ _).mp hgen
        rw [← hbe] at hb
        obtain ⟨ent, _, rfl⟩ := List.mem_map.mp hb
        exact filter_candidates_spec
          (meshRows_nodup target_rel (List.nodup_singleton ent) (tailPool_nodup X cs)) ht
      · rw [if_neg hex] at hgen
        cases h1 : rng.choice (rng.seedFn seed)
            (samplingPools X strategy mcv.toNat cs mF).1 (floorSqrt mcv.toNat) with
        | none =>
          rw [h1] at hgen
          simp at hgen
        | some out =>
          obtain ⟨sS, g1⟩ := out
          rw [h1] at hgen
          simp only [] at hgen
          cases h2 : rng.choice g1
              (samplingPools X strategy mcv.toNat cs mF).2 (floorSqrt mcv.toNat) with
          | none =>
            rw [h2] at hgen
            simp at hgen
          | some out2 =>
            obtain ⟨sO, g2⟩ := out2
            rw [h2] at hgen
            simp only [] at hgen
            have hbe := (Except.ok.injEq _ _).mp hgen
            rw [← hbe] at hb
            have hpools := samplingPools_nodup X strategy mcv.toNat cs mF hmF
            have hS := rng.choice_nodup _ _ _ _ h1 hpools.1
            have hO := rng.choice_nodup _ _ _ _ h2 hpools.2
            rcases List.mem_singleton.mp hb with rfl
            exact filter_candidates_spec (meshRows_nodup target_rel hS hO) ht

/-- Witness for C3: on a two-triple graph with the exhaustive strategy, the
candidate (a, y, d) survives filtering and indeed is absent from X with
distinct subject and object. -/
theorem generate_candidates_batch_invariant_witness :
    ("a", "y", "d") ∉ ([("a", "y", "b"), ("c", "y", "d")] : List Triple)
      ∧ ("a" : String) ≠ "d" :=
  generate_candidates_batch_invariant takeFirstRng ()
    [("a", "y", "b"), ("c", "y", "d")] "exhaustive" "y" (.int 1) false
    (fun _ _ => []) 0 (fun _ _ => by simp)
    [[("a", "y", "d")], [("c", "y", "b")]] (by rfl)
    [("a", "y", "d")] (by decide) ("a", "y", "d") (by decide)

/-- C2: evaluation of `discover_facts` at a two-relation input where each
relation contributes one retained candidate row: the claim (and the docstring
return shape `[n, 3]`) requires the row-wise concatenation
`[[a, r1, x], [a, r2, x]]`, but `np.hstack` concatenates along the column axis
and the code returns the single 6-wide row `[[a, r1, x, a, r2, x]]`. -/
theorem discover_facts_hstack_eval :
    discover_facts takeFirstRng () [("b", "r1", "x"), ("a", "r2", "y")]
        { isFitted := true, entVocab := [], relVocab := ["r1", "r2"],
          predict := fun _ => 0 }
        (fun Y _ => Y) (fun _ _ => (1, 1)) (fun _ _ => []) 10 "random_uniform"
        (.int 1) none 0
      = .ok [["a", "r1", "x", "a", "r2", "x"]]
    ∧ (["a", "r1", "x", "a", "r2", "x"] : List String).length = 6 := by
  constructor
  · rfl
  · rfl

/-- C4 (amended): for every argsort meeting numpy's contract — an ascending
permutation of the candidate indices, with the tie order left unspecified
because the default quicksort is not stable — the completion order produced by
`query_topn`'s `np.argsort(scores)[::-1][:top_n]` is weakly descending by
score, and the returned index sequence has length `min top_n n`; tied
completions come out in the reverse of whatever order the argsort produced,
which is not the candidate-list order (see the counterexample). -/
theorem topnIdx_desc (asort : NpArgsort) (scores : List Int) (top_n : Nat) :
    (topnIdx asort scores top_n).Pairwise
        (fun i j => scores.getD j 0 ≤ scores.getD i 0)
      ∧ (topnIdx asort scores top_n).length = min top_n scores.length := by
  constructor
  · unfold topnIdx
    apply List.Pairwise.sublist (List.take_sublist _ _)
    rw [List.pairwise_reverse]
    exact asort.argsort_sorted scores
  · unfold topnIdx
    rw [List.length_take, List.length_reverse,
      (asort.argsort_perm scores).length_eq, List.length_range]

/-- C4 counterexample: two completions with tied scores are returned in the
reverse of the candidate-list order ((h,r,b) before (h,r,a)), so the claimed
stable descending sort (which would keep (h,r,a) first) does not hold; on a
2-element array numpy's argsort is insertion sort and returns [0, 1] for the
tied scores, exactly the `stableArgsort` instance used here, and the `[::-1]`
reversal then emits index 1 first. -/
theorem query_topn_tie_counterexample :
    query_topn stableArgsort
        { isFitted := true, entVocab := ["h", "a", "b"], relVocab := ["r"],
          predict := fun _ => 0 } 2 (some "h") (some "r") none
        (some ["a", "b"]) none
      = .ok ([], [("h", "r", "b"), ("h", "r", "a")], [0, 0])
    ∧ (("h", "r", "b") : Triple) ≠ ("h", "r", "a") := by
  constructor
  · rfl
  · decide

/-- C10 (amended): an empty `ents_to_consider` (respectively
`rels_to_consider`) list passes the type and membership validation and the
completion set falls back to the full entity (respectively relation)
vocabulary exactly as when the argument is omitted (Python `or` treats the
empty list as falsy), but the argument is not treated as omitted by
validation: the truncation warning fires whenever `top_n > 0` (each empty-list
call returns exactly the omitted-call result with its truncation warning
prepended), and the conflict checks still apply — an empty `ents_to_consider`
with both head and tail fixed, and an empty `rels_to_consider` with the
relation fixed, raise the conflict errors just as non-empty lists do. -/
theorem query_topn_empty_list_spec (asort : NpArgsort) (model : KModel)
    (h r t : String) (top_n : Nat) (hf : model.isFitted = true)
    (hh : h ∈ model.entVocab) (hhne : (h == "") = false)
    (hr : r ∈ model.relVocab) (hrne : (r == "") = false)
    (ht : t ∈ model.entVocab) (htne : (t == "") = false) (htop : 0 < top_n) :
    (query_topn asort model top_n (some h) (some r) none (some []) none
      = (query_topn asort model top_n (some h) (some r) none none none).map
          (fun out => (truncEntsMsg :: out.1, out.2)))
    ∧ (query_topn asort model top_n (some h) none (some t) none (some [])
      = (query_topn asort model top_n (some h) none (some t) none none).map
          (fun out => (truncRelsMsg :: out.1, out.2)))
    ∧ query_topn asort model top_n (some h) none (some t) (some []) none
      = .error "Cannot specify `ents_to_consider` and both `subject` and `object` arguments."
    ∧ query_topn asort model top_n (some h) (some r) none none (some [])
      = .error "Cannot specify both `rels_to_consider` and `relation` arguments." := by
  refine ⟨?_, ?_, ?_, ?_⟩
  · simp [query_topn, pyTruthy, pyOr, hf, hh, hr, hhne, hrne, htop, Except.map]
  · simp [query_topn, pyTruthy, pyOr, hf, hh, ht, hhne, htne, htop, Except.map]
  · simp [query_topn, pyTruthy, pyOr, hf, hh, ht, hhne, htne]
  · simp [query_topn, pyTruthy, pyOr, hf, hh, hr, hhne, hrne]

/-- Witness for C10 (amended): on a concrete two-entity model, each empty-list
call equals the corresponding omitted-argument call with its truncation
warning prepended, and both conflict errors fire on empty lists. -/
theorem query_topn_empty_list_spec_witness :
    (query_topn stableArgsort
        { isFitted := true, entVocab := ["a", "b"], relVocab := ["r"],
          predict := fun _ => 0 } 10 (some "a") (some "r") none (some []) none
      = (query_topn stableArgsort
          { isFitted := true, entVocab := ["a", "b"], relVocab := ["r"],
            predict := fun _ => 0 } 10 (some "a") (some "r") none none none).map
          (fun out => (truncEntsMsg :: out.1, out.2)))
    ∧ (query_topn stableArgsort
        { isFitted := true, entVocab := ["a", "b"], relVocab := ["r"],
          predict := fun _ => 0 } 10 (some "a") none (some "b") none (some [])
      = (query_topn stableArgsort
          { isFitted := true, entVocab := ["a", "b"], relVocab := ["r"],
            predict := fun _ => 0 } 10 (some "a") none (some "b") none none).map
          (fun out => (truncRelsMsg :: out.1, out.2)))
    ∧ query_topn stableArgsort
        { isFitted := true, entVocab := ["a", "b"], relVocab := ["r"],
          predict := fun _ => 0 } 10 (some "a") none (some "b") (some []) none
      = .error "Cannot specify `ents_to_consider` and both `subject` and `object` arguments."
    ∧ query_topn stableArgsort
        { isFitted := true, entVocab := ["a", "b"], relVocab := ["r"],
          predict := fun _ => 0 } 10 (some "a") (some "r") none none (some [])
      = .error "Cannot specify both `rels_to_consider` and `relation` arguments." :=
  query_topn_empty_list_spec stableArgsort
    { isFitted := true, entVocab := ["a", "b"], relVocab := ["r"],
      predict := fun _ => 0 } "a" "r" "b" 10 rfl (by decide) (by decide)
    (by decide) (by decide) (by decide) (by decide) (by decide)

/-- C10 counterexample: with an empty `ents_to_consider` and `top_n = 10`, the
code returns the truncation warning (and the full-vocabulary completions), so
the claim that the call passes validation "without error or warning" is false. -/
theorem query_topn_empty_warns_counterexample :
    query_topn stableArgsort
        { isFitted := true, entVocab := ["a", "b"], relVocab := ["r"],
          predict := fun _ => 0 } 10 (some "a") (some "r") none (some []) none
      = .ok ([truncEntsMsg], [("a", "r", "b"), ("a", "r", "a")], [0, 0])
    ∧ ([truncEntsMsg] : List String) ≠ [] := by
  constructor
  · rfl
  · decide

/-- C5 counterexample: two items with identical embeddings (and expected
fraction 1/10) make `opt(0)` and `opt(maxDistance)` both positive, so scipy's
bisection raises ValueError instead of returning a tolerance, refuting the
claim that the calibration terminates with a tolerance for every item set of
at least two items and any expected fraction. -/
theorem find_duplicates_auto_samesign_counterexample :
    find_duplicates_auto ["a", "b"] [(0 : Rat), 0] qdist (1 / 10)
      = .error signErrMsg := by
  have hnb0 : radiusNeighbors qdist [(0 : Rat), 0] 0 0 = [0, 1] := by
    norm_num [radiusNeighbors, qdist, List.range_succ, List.filter_cons,
      List.filter_nil]
  have hnb1 : radiusNeighbors qdist [(0 : Rat), 0] 0 1 = [0, 1] := by
    norm_num [radiusNeighbors, qdist, List.range_succ, List.filter_cons,
      List.filter_nil]
  have hgd : get_dups ["a", "b"] [(0 : Rat), 0] qdist 0 = [{"a", "b"}] := by
    simp [get_dups, hnb0, hnb1, List.range_succ, List.filter_cons,
      List.filter_nil]
  have hmax : maxPairwiseDistance qdist [(0 : Rat), 0] = 0 := by
    norm_num [maxPairwiseDistance, qdist]
  have hopt : optFun ["a", "b"] [(0 : Rat), 0] qdist (1 / 10) 0 = 9 / 10 := by
    have hcard : (dupUnion [({"a", "b"} : Finset String)]).card = 2 := by decide
    rw [optFun, hgd, hcard]
    norm_num
  unfold find_duplicates_auto bisect
  rw [hmax, hopt]
  norm_num

/-- A max fold of rationals with neutral element 0 is nonnegative. -/
theorem foldr_max_nonneg (l : List Rat) : 0 ≤ l.foldr max 0 := by
  induction l with
  | nil => exact le_refl 0
  | cons x xs ih => exact le_trans ih (le_max_right x _)

/-- The scipy bisection loop stays inside [0, b] and, once the halved step is
below xtol, exits with the midpoint; `dm < xtol * 2 ^ fuel` guarantees an exit
within `fuel + 1` iterations. -/
theorem bisectLoop_range (f : Rat → Rat) (xtol rtol : Rat) (fa : Rat) (b : Rat)
    (hxtol : 0 < xtol) (hrtol : 0 ≤ rtol) :
    ∀ fuel xa dm, 0 ≤ xa → 0 ≤ dm → xa + dm ≤ b → dm < xtol * 2 ^ fuel →
      ∃ t, bisectLoop f xtol rtol fa (fuel + 1) xa dm = .ok t
        ∧ 0 ≤ t ∧ t ≤ b := by
  intro fuel
  induction fuel with
  | zero =>
    intro xa dm hxa hdm hsum hlt
    rw [pow_zero, mul_one] at hlt
    have hcond : f (xa + dm / 2) = 0
        ∨ |dm / 2| < xtol + rtol * |xa + dm / 2| := by
      right
      rw [abs_of_nonneg (by linarith : (0 : Rat) ≤ dm / 2)]
      have h2 : (0 : Rat) ≤ rtol * |xa + dm / 2| :=
        mul_nonneg hrtol (abs_nonneg _)
      linarith
    refine ⟨xa + dm / 2, ?_, by linarith, by linarith⟩
    unfold bisectLoop
    rw [if_pos hcond]
  | succ n ih =>
    intro xa dm hxa hdm hsum hlt
    by_cases hcond : f (xa + dm / 2) = 0
        ∨ |dm / 2| < xtol + rtol * |xa + dm / 2|
    · refine ⟨xa + dm / 2, ?_, by linarith, by linarith⟩
      unfold bisectLoop
      rw [if_pos hcond]
    · have hlt2 : dm / 2 < xtol * 2 ^ n := by
        rw [pow_succ] at hlt
        linarith
      unfold bisectLoop
      rw [if_neg hcond]
      by_cases hsg : f (xa + dm / 2) * fa ≥ 0
      · rw [if_pos hsg]
        exact ih (xa + dm / 2) (dm / 2) (by linarith) (by linarith)
          (by linarith) hlt2
      · rw [if_neg hsg]
        exact ih xa (dm / 2) hxa (by linarith) (by linarith) hlt2

/-- The full scipy bisection over [0, b] with a sign-changing bracket and a
narrow-enough interval returns a value in [0, b] within its iteration budget. -/
theorem bisect_range (f : Rat → Rat) (b xtol rtol : Rat) (hb : 0 ≤ b)
    (hxtol : 0 < xtol) (hrtol : 0 ≤ rtol) (hsign : f 0 * f b ≤ 0)
    (hconv : b < xtol * 2 ^ 49) :
    ∃ t, bisect f 0 b xtol rtol 50 = .ok t ∧ 0 ≤ t ∧ t ≤ b := by
  unfold bisect
  rw [if_neg (not_lt.mpr hsign)]
  by_cases hfa : f 0 = 0
  · rw [if_pos hfa]
    exact ⟨0, rfl, le_refl 0, hb⟩
  · rw [if_neg hfa]
    by_cases hfb : f b = 0
    · rw [if_pos hfb]
      exact ⟨b, rfl, hb, le_refl b⟩
    · rw [if_neg hfb]
      have h50 : (50 : Nat) = 49 + 1 := rfl
      rw [h50]
      have := bisectLoop_range f xtol rtol (f 0) b hxtol hrtol 49 0 (b - 0)
        (le_refl 0) (by linarith) (by linarith) (by linarith)
      simpa using this

/-- C5 (amended): provided the bracket [0, maxPairwiseDistance] changes sign
(`opt(0) * opt(maxDistance) <= 0`, which fails e.g. when all the items
coincide) and the interval is narrow enough for 50 halvings to reach
xtol = 1e-3 (maxDistance < 2^49/1000), the auto-tolerance calibration of
`find_duplicates` returns — within its 50-iteration budget, rather than
raising — the duplicate groups at a resolved tolerance lying within
[0, maxPairwiseDistance]. -/
theorem find_duplicates_auto_range {P : Type} [Inhabited P]
    (labels : List String) (emb : List P) (d : P → P → Rat) (expected : Rat)
    (hsign : optFun labels emb d expected 0
        * optFun labels emb d expected (maxPairwiseDistance d emb) ≤ 0)
    (hconv : maxPairwiseDistance d emb < (1 / 1000) * 2 ^ 49) :
    ∃ tol, find_duplicates_auto labels emb d expected
        = .ok (get_dups labels emb d tol, tol)
      ∧ 0 ≤ tol ∧ tol ≤ maxPairwiseDistance d emb := by
  obtain ⟨t, hbt, h0, hbb⟩ := bisect_range (optFun labels emb d expected)
    (maxPairwiseDistance d emb) (1 / 1000) (1 / 2 ^ 50)
    (foldr_max_nonneg _) (by norm_num) (by norm_num) hsign hconv
  refine ⟨t, ?_, h0, hbb⟩
  unfold find_duplicates_auto
  rw [hbt]

/-- Witness for C5 (amended): two items at embedding distance 1 with expected
fraction 1/2 give a sign-changing bracket, so the calibration returns a
tolerance within [0, 1]. -/
theorem find_duplicates_auto_range_witness :
    ∃ tol, find_duplicates_auto ["a", "b"] [(0 : Rat), 1] qdist (1 / 2)
        = .ok (get_dups ["a", "b"] [(0 : Rat), 1] qdist tol, tol)
      ∧ 0 ≤ tol ∧ tol ≤ maxPairwiseDistance qdist [(0 : Rat), 1] := by
  have hnb00 : radiusNeighbors qdist [(0 : Rat), 1] 0 0 = [0] := by
    norm_num [radiusNeighbors, qdist, List.range_succ, List.filter_cons,
      List.filter_nil]
  have hnb01 : radiusNeighbors qdist [(0 : Rat), 1] 0 1 = [1] := by
    norm_num [radiusNeighbors, qdist, List.range_succ, List.filter_cons,
      List.filter_nil]
  have hgd0 : get_dups ["a", "b"] [(0 : Rat), 1] qdist 0 = [] := by
    simp [get_dups, hnb00, hnb01, List.range_succ, List.filter_cons,
      List.filter_nil]
  have hopt0 : optFun ["a", "b"] [(0 : Rat), 1] qdist (1 / 2) 0 = -(1 / 2) := by
    rw [optFun, hgd0]
    norm_num [dupUnion]
  have hmax : maxPairwiseDistance qdist [(0 : Rat), 1] = 1 := by
    norm_num [maxPairwiseDistance, qdist]
  have hnb10 : radiusNeighbors qdist [(0 : Rat), 1] 1 0 = [0, 1] := by
    norm_num [radiusNeighbors, qdist, List.range_succ, List.filter_cons,
      List.filter_nil]
  have hnb11 : radiusNeighbors qdist [(0 : Rat), 1] 1 1 = [0, 1] := by
    norm_num [radiusNeighbors, qdist, List.range_succ, List.filter_cons,
      List.filter_nil]
  have hgd1 : get_dups ["a", "b"] [(0 : Rat), 1] qdist 1 = [{"a", "b"}] := by
    simp [get_dups, hnb10, hnb11, List.range_succ, List.filter_cons,
      List.filter_nil]
  have hopt1 : optFun ["a", "b"] [(0 : Rat), 1] qdist (1 / 2) 1 = 1 / 2 := by
    have hcard : (dupUnion [({"a", "b"} : Finset String)]).card = 2 := by decide
    rw [optFun, hgd1, hcard]
    norm_num
  exact find_duplicates_auto_range ["a", "b"] [(0 : Rat), 1] qdist (1 / 2)
    (by rw [hmax, hopt0, hopt1]; norm_num)
    (by rw [hmax]; norm_num)

/-- Distinct labels make positional lookup injective. -/
theorem labels_getD_inj {labels : List String} (hnd : labels.Nodup) {i j : Nat}
    (hi : i < labels.length) (hj : j < labels.length)
    (he : labels.getD i "" = labels.getD j "") : i = j := by
  rw [List.getD_eq_getElem labels "" hi, List.getD_eq_getElem labels "" hj] at he
  exact (List.Nodup.getElem_inj_iff hnd).mp he

/-- A duplicate-free list of at least two indices has a member different from
any given index. -/
theorem exists_ne_of_nodup_two {l : List Nat} (hn : l.Nodup) (hl : 2 ≤ l.length)
    (x : Nat) : ∃ y ∈ l, y ≠ x := by
  cases l with
  | nil => simp at hl
  | cons a t =>
    cases t with
    | nil => simp at hl
    | cons b rest =>
      by_cases hax : a = x
      · subst hax
        refine ⟨b, by simp, fun hba => ?_⟩
        rw [List.nodup_cons] at hn
        subst hba
        exact hn.1 (List.mem_cons_self _ _)
      · exact ⟨a, by simp, hax⟩

/-- C9 (amended): for item lists with pairwise-distinct labels and a symmetric
metric, every group emitted by `get_dups` contains at least two labels, and
the label of an item with no neighbor within the tolerance appears in no
group; with repeated labels a group can collapse below two labels (see the
counterexample). -/
theorem get_dups_groups_spec {P : Type} [Inhabited P] (labels : List String)
    (emb : List P) (d : P → P → Rat) (tol : Rat)
    (hlen : emb.length = labels.length) (hnd : labels.Nodup)
    (hsym : ∀ x y, d x y = d y x)
    (g : Finset String) (hg : g ∈ get_dups labels emb d tol) :
    2 ≤ g.card
      ∧ ∀ i, i < emb.length →
        (∀ j, j < emb.length → j ≠ i →
          ¬ d (emb.getD i default) (emb.getD j default) ≤ tol) →
        labels.getD i "" ∉ g := by
  rw [get_dups, List.mem_dedup] at hg
  obtain ⟨k, hk, rfl⟩ := List.mem_map.mp hg
  obtain ⟨hkr, hklen⟩ := List.mem_filter.mp hk
  have hkrange := List.mem_range.mp hkr
  have hklen' : 1 < (radiusNeighbors d emb tol k).length := by simpa using hklen
  have hnbnodup : (radiusNeighbors d emb tol k).Nodup :=
    (List.nodup_range _).filter _
  have hnbmem : ∀ j ∈ radiusNeighbors d emb tol k, j < emb.length := by
    intro j hj
    exact List.mem_range.mp (List.mem_filter.mp hj).1
  have hnbdist : ∀ j ∈ radiusNeighbors d emb tol k,
      d (emb.getD k default) (emb.getD j default) ≤ tol := by
    intro j hj
    have := (List.mem_filter.mp hj).2
    simpa using this
  constructor
  · have hmapnodup : ((radiusNeighbors d emb tol k).map
        (fun j => labels.getD j "")).Nodup := by
      apply List.Nodup.map_on ?_ hnbnodup
      intro x hx y hy hxy
      exact labels_getD_inj hnd (hlen ▸ hnbmem x hx) (hlen ▸ hnbmem y hy) hxy
    rw [List.toFinset_card_of_nodup hmapnodup, List.length_map]
    omega
  · intro i hi hno hmem
    rw [List.mem_toFinset] at hmem
    obtain ⟨j, hj, hje⟩ := List.mem_map.mp hmem
    have hj' : j = i := labels_getD_inj hnd (hlen ▸ hnbmem j hj) (hlen ▸ hi) hje
    subst hj'
    by_cases hki : k = j
    · subst hki
      obtain ⟨j2, hj2, hj2ne⟩ := exists_ne_of_nodup_two hnbnodup (by omega) k
      exact hno j2 (hnbmem j2 hj2) hj2ne (hnbdist j2 hj2)
    · exact hno k hkrange hki (by
        rw [hsym]
        exact hnbdist j hj)

/-- C9 counterexample: the same entity listed twice with identical embeddings
yields the duplicate group {a}, which contains a single label, refuting the
claim that every returned group has at least two item labels for every input
item list. -/
theorem get_dups_singleton_label_counterexample :
    get_dups ["a", "a"] [(0 : Rat), 0] qdist 0 = [{"a"}]
      ∧ ({"a"} : Finset String).card = 1 := by
  constructor
  · have hnb0 : radiusNeighbors qdist [(0 : Rat), 0] 0 0 = [0, 1] := by
      norm_num [radiusNeighbors, qdist, List.range_succ, List.filter_cons,
        List.filter_nil]
    have hnb1 : radiusNeighbors qdist [(0 : Rat), 0] 0 1 = [0, 1] := by
      norm_num [radiusNeighbors, qdist, List.range_succ, List.filter_cons,
        List.filter_nil]
    simp [get_dups, hnb0, hnb1, List.range_succ, List.filter_cons,
      List.filter_nil]
  · decide

/-- Witness for C9 (amended): three distinctly-labelled items, two coincident
and one isolated, give the single group {a, b}: it has two labels and the
isolated item's label c is not in it. -/
theorem get_dups_groups_spec_witness :
    2 ≤ ({"a", "b"} : Finset String).card
      ∧ ("c" : String) ∉ ({"a", "b"} : Finset String) := by
  have hnb0 : radiusNeighbors qdist [(0 : Rat), 0, 5] 0 0 = [0, 1] := by
    norm_num [radiusNeighbors, qdist, List.range_succ, List.filter_cons,
      List.filter_nil]
  have hnb1 : radiusNeighbors qdist [(0 : Rat), 0, 5] 0 1 = [0, 1] := by
    norm_num [radiusNeighbors, qdist, List.range_succ, List.filter_cons,
      List.filter_nil]
  have hnb2 : radiusNeighbors qdist [(0 : Rat), 0, 5] 0 2 = [2] := by
    norm_num [radiusNeighbors, qdist, List.range_succ, List.filter_cons,
      List.filter_nil]
  have hgd : get_dups ["a", "b", "c"] [(0 : Rat), 0, 5] qdist 0
      = [{"a", "b"}] := by
    simp [get_dups, hnb0, hnb1, hnb2, List.range_succ, List.filter_cons,
      List.filter_nil]
  have hmain := get_dups_groups_spec ["a", "b", "c"] [(0 : Rat), 0, 5] qdist 0
    rfl (by decide) (fun x y => by simp [qdist, abs_sub_comm])
    {"a", "b"} (by rw [hgd]; simp)
  refine ⟨hmain.1, ?_⟩
  have h2 := hmain.2 2 (by norm_num) ?_
  · exact h2
  · intro j hj hne
    have hj3 : j < 3 := by simpa using hj
    have hcases : j = 0 ∨ j = 1 ∨ j = 2 := by omega
    rcases hcases with rfl | rfl | rfl
    · norm_num [qdist]
    · norm_num [qdist]
    · exact absurd rfl hne
